import Mathlib

/-!
Shallow embedding of `run_update_ctx.py` (SynTeR): the resumable batch driver
`main`, its per-item processing step, the ledger-file handling, and the query
construction `construct_update_query`.

External collaborators (comment stripping, Java formatting, diffing, context
retrieval, the LLM chain `prompt | model | StrOutputParser() | extract_code`)
are modelled as oracle functions packaged in an `Env`; each returns
`Except Err _` since any Python call may raise.  A falsy Python string (the
failure value of `extract_code` and of `formatted_java_code`) is modelled as
the empty string `""`.  Integer ids are `Nat` (they are list indices, never
negative, never overflowing in Python).
-/

namespace SynTeR

/-- An exception value: either `json.JSONDecodeError` raised by `json.load`,
or an exception raised inside a collaborator call. -/
inductive Err where
  | jsonDecode
  | collab (msg : String)
  deriving DecidableEq, Repr

/-- One element of the `outputs` list: the dict built at lines 146-153 of
`run_update_ctx.py` with keys `id`, `original`, `prediction`, `reference`. -/
structure ResultRecord where
  id : Nat
  original : String
  prediction : String
  reference : String
  deriving DecidableEq, Repr

/-- State of the output file `output_datafile`.  `absent`: `os.path.exists`
is false.  `emptyFile`: the file exists but holds zero bytes, which is not
valid JSON, so `json.load` raises `JSONDecodeError` (`Expecting value`).
`jsonList rs`: the file exists and holds a JSON array of result records
(the only thing this program ever writes to it, via `json.dump`). -/
inductive FileContent where
  | absent
  | emptyFile
  | jsonList (records : List ResultRecord)
  deriving DecidableEq, Repr

/-- One dataset example.  `focal_src`/`focal_tgt`/`test_src` are the fields
read through the `UpdateInfo` wrapper in `construct_update_query`;
`test_tgt` is `exp.test_db["method_tgt"]` read directly in `main`. -/
structure Example where
  focal_src : String
  focal_tgt : String
  test_src : String
  test_tgt : String
  deriving DecidableEq, Repr

/-- One entry of the list returned by `retrieve_context`: a dict with keys
`info` and `contexts`. -/
structure RetCtx where
  info : String
  contexts : List String
  deriving DecidableEq, Repr

/-- The `query_json` dict built by `construct_update_query`. -/
structure Query where
  focal_diff : String
  test_src : String
  global_context : String
  deriving DecidableEq, Repr

/-- The external collaborators, as fallible oracles.  `chainInvoke` is
`chain.invoke`, whose `.ok` result is the extracted code text, with `""`
as the unparseable-output sentinel (a falsy Python value). -/
structure Env where
  getCodeWithoutComments : String → Except Err String
  formattedJavaCode : String → Except Err String
  getDiff : String → String → Except Err String
  retrieveContext : Example → Bool → Except Err (List RetCtx)
  chainInvoke : Query → Except Err String

/-- The four-character marker `format_prefix = "@@\n\n"` of line 73. -/
def formatMarker : String := "@@\n\n"

/-- `leadsWith pat s` is true when `pat` is an initial segment of `s`. -/
def leadsWith : List Char → List Char → Bool
  | [], _ => true
  | _ :: _, [] => false
  | p :: ps, c :: cs => p == c && leadsWith ps cs

/-- Index of the first occurrence of `pat` in a character list, scanning left
to right (the search underlying Python `str.find`). -/
def strFind (pat : List Char) : List Char → Option Nat
  | [] => if leadsWith pat [] then some 0 else none
  | c :: cs =>
    if leadsWith pat (c :: cs) then some 0
    else Option.map (fun n => n + 1) (strFind pat cs)

/-- Python `diff_str.find(format_prefix)`: first index of the marker, or
`-1` when the marker does not occur. -/
def pyFind (s pat : List Char) : Int :=
  match strFind pat s with
  | some n => (n : Int)
  | none => -1

/-- Lines 79-80: `start = diff_str.find(format_prefix)` followed by the slice
`diff_str[start + len(format_prefix):]` with `len(format_prefix) = 4`.
When the marker is absent `start = -1` and the slice drops `3` characters. -/
def focalDiffOf (diff_str : String) : String :=
  String.mk (diff_str.data.drop (pyFind diff_str.data formatMarker.data + 4).toNat)

/-- The context-accumulation loop of lines 86-92: starting from accumulator
`acc` (initially `""`), append for every retrieved entry with nonempty
`contexts` the bullet line and the fenced code block. -/
def buildContexts : List RetCtx → String → String
  | [], acc => acc
  | r :: t, acc =>
    buildContexts t
      (if r.contexts.length > 0 then
        acc ++ "- " ++ r.info ++ "\n" ++ "```java\n" ++
          String.intercalate "\n\n" r.contexts ++ "\n```\n\n"
      else acc)

/-- Python `str.strip()`: remove whitespace characters from both ends. -/
def pyStrip (s : String) : String :=
  String.mk (((s.data.dropWhile Char.isWhitespace).reverse.dropWhile
    Char.isWhitespace).reverse)

/-- Lines 69-77 of `construct_update_query`: clean and format both focal
versions, then diff the formatted versions when both are truthy, else diff
the raw versions. -/
def diffStrOf (env : Env) (update_info : Example) : Except Err String :=
  match env.getCodeWithoutComments update_info.focal_src with
  | .error e => .error e
  | .ok focal_src_clean =>
    match env.formattedJavaCode focal_src_clean with
    | .error e => .error e
    | .ok focal_src_fmt =>
      match env.getCodeWithoutComments update_info.focal_tgt with
      | .error e => .error e
      | .ok focal_tgt_clean =>
        match env.formattedJavaCode focal_tgt_clean with
        | .error e => .error e
        | .ok focal_tgt_fmt =>
          if focal_src_fmt ≠ "" ∧ focal_tgt_fmt ≠ "" then
            env.getDiff focal_src_fmt focal_tgt_fmt
          else
            env.getDiff update_info.focal_src update_info.focal_tgt

/-- `construct_update_query` (lines 62-96): build the query dict with the
diff suffix after the marker, the formatted test source (falling back to the
raw test source when formatting is falsy), and the stripped context block. -/
def construct_update_query (env : Env) (update_info : Example) (clean_tests : Bool) :
    Except Err Query :=
  match diffStrOf env update_info with
  | .error e => .error e
  | .ok diff_str =>
    match env.getCodeWithoutComments update_info.test_src with
    | .error e => .error e
    | .ok test_src_clean =>
      match env.formattedJavaCode test_src_clean with
      | .error e => .error e
      | .ok test_src_fmt =>
        match env.retrieveContext update_info clean_tests with
        | .error e => .error e
        | .ok retctx_list =>
          .ok { focal_diff := focalDiffOf diff_str,
                test_src := if test_src_fmt ≠ "" then test_src_fmt
                            else update_info.test_src,
                global_context := pyStrip (buildContexts retctx_list "") }

/-- The driver's mutable per-run state: the in-memory `outputs` ledger, the
`error_list` of failed item ids, the state of the output file, and a ghost
`trace` recording, in order, each item id `i` whose iteration was entered
(line 137 `logger.info("==> Processing item id: {i}")`). -/
structure LoopState where
  outputs : List ResultRecord
  error_list : List Nat
  file : FileContent
  trace : List Nat
  deriving DecidableEq, Repr

/-- Lines 122-134 of `main`: `processed_count = 0`; when `write_to_file` is
set and the output file exists, `json.load` it (raising `JSONDecodeError` on
a zero-byte file); when the loaded `content` is truthy (a nonempty list) the
starting ledger is `content` and `processed_count = len(outputs)`. -/
def loadResume (write_to_file : Bool) (file : FileContent) :
    Except Err (List ResultRecord × Nat) :=
  if write_to_file then
    match file with
    | .absent => .ok ([], 0)
    | .emptyFile => .error .jsonDecode
    | .jsonList content =>
      if content ≠ [] then .ok (content, content.length) else .ok ([], 0)
  else .ok ([], 0)

/-- One iteration of the loop at lines 135-167 for item id `i`: build the
query, invoke the chain, clean and format `exp.test_db["method_tgt"]`,
append the result dict to `outputs`, append `i` to `error_list` when the
prediction is falsy, and rewrite the whole output file when `write_to_file`.
An exception escaping any collaborator call aborts the iteration, carrying
the (unchanged, except for the ghost trace) state. -/
def stepItem (env : Env) (clean_tests write_to_file : Bool) (i : Nat)
    (exp : Example) (st : LoopState) : Except (Err × LoopState) LoopState :=
  let st1 : LoopState := { st with trace := st.trace ++ [i] }
  match construct_update_query env exp clean_tests with
  | .error e => .error (e, st1)
  | .ok update_query =>
    match env.chainInvoke update_query with
    | .error e => .error (e, st1)
    | .ok res =>
      match env.getCodeWithoutComments exp.test_tgt with
      | .error e => .error (e, st1)
      | .ok test_tgt_clean =>
        match env.formattedJavaCode test_tgt_clean with
        | .error e => .error (e, st1)
        | .ok test_tgt_fmt =>
          let outputs := st1.outputs ++
            [{ id := i, original := update_query.test_src,
               prediction := res, reference := test_tgt_fmt }]
          let error_list :=
            if res ≠ "" then st1.error_list else st1.error_list ++ [i]
          let file :=
            if write_to_file then FileContent.jsonList outputs else st1.file
          .ok { outputs := outputs, error_list := error_list,
                file := file, trace := st1.trace }

/-- The loop `for i, exp in enumerate(examples[processed_count:])` with
`i = processed_count + i`: process the remaining examples sequentially,
propagating the first escaping exception. -/
def runLoop (env : Env) (clean_tests write_to_file : Bool) :
    List Example → Nat → LoopState → Except (Err × LoopState) LoopState
  | [], _, st => .ok st
  | exp :: rest, i, st =>
    match stepItem env clean_tests write_to_file i exp st with
    | .error es => .error es
    | .ok st' => runLoop env clean_tests write_to_file rest (i + 1) st'

/-- `main` (lines 99-177), for a given dataset `examples` and initial output
file `file0`: resume bookkeeping, the processing loop, and the final summary
`len(examples) - len(error_list)` of line 176 (reported, together with the
full `error_list` of lines 171-174, when `write_to_file` is set).  An
escaping exception carries the state at the moment it escaped. -/
def runMain (env : Env) (clean_tests write_to_file : Bool)
    (examples : List Example) (file0 : FileContent) :
    Except (Err × LoopState) (LoopState × Nat) :=
  match loadResume write_to_file file0 with
  | .error e => .error (e, ⟨[], [], file0, []⟩)
  | .ok (outputs0, processed_count) =>
    match runLoop env clean_tests write_to_file (examples.drop processed_count)
        processed_count ⟨outputs0, [], file0, []⟩ with
    | .error es => .error es
    | .ok st => .ok (st, examples.length - st.error_list.length)

/-- The result record produced by one successful iteration for item `i`
(extracted from `stepItem` for reasoning: same collaborator calls, same
record). -/
def itemRecord (env : Env) (clean_tests : Bool) (i : Nat) (exp : Example) :
    Except Err ResultRecord :=
  match construct_update_query env exp clean_tests with
  | .error e => .error e
  | .ok q =>
    match env.chainInvoke q with
    | .error e => .error e
    | .ok res =>
      match env.getCodeWithoutComments exp.test_tgt with
      | .error e => .error e
      | .ok c =>
        match env.formattedJavaCode c with
        | .error e => .error e
        | .ok f => .ok { id := i, original := q.test_src,
                         prediction := res, reference := f }

/-- The records produced by a run over `exps` starting at id `i`, or the
first escaping exception. -/
def recordsFor (env : Env) (clean_tests : Bool) :
    List Example → Nat → Except Err (List ResultRecord)
  | [], _ => .ok []
  | exp :: rest, i =>
    match itemRecord env clean_tests i exp with
    | .error e => .error e
    | .ok r =>
      match recordsFor env clean_tests rest (i + 1) with
      | .error e => .error e
      | .ok rs => .ok (r :: rs)

/-- Ids of the records whose prediction is the failure sentinel: exactly the
ids appended to `error_list` by the loop body. -/
def errIds (rs : List ResultRecord) : List Nat :=
  rs.filterMap fun r => if r.prediction = "" then some r.id else none

/-- The oracles never raise: every collaborator call returns normally.
(`chainInvoke` may still return the falsy sentinel `""`.) -/
def EnvTotal (env : Env) : Prop :=
  (∀ s, ∃ v, env.getCodeWithoutComments s = .ok v) ∧
  (∀ s, ∃ v, env.formattedJavaCode s = .ok v) ∧
  (∀ a b, ∃ v, env.getDiff a b = .ok v) ∧
  (∀ u b, ∃ v, env.retrieveContext u b = .ok v) ∧
  (∀ q, ∃ v, env.chainInvoke q = .ok v)

/-- A concrete example used to evaluate the embedding on closed inputs. -/
def exW : Example := ⟨"A", "B", "T", "G"⟩

/-- A concrete oracle assignment on which every collaborator call returns
normally: cleaning and formatting are the identity, the diff is a fixed text
containing the marker, retrieval returns nothing, and the chain returns the
non-sentinel text `"out"`. -/
def envW : Env :=
  { getCodeWithoutComments := fun s => .ok s,
    formattedJavaCode := fun s => .ok s,
    getDiff := fun _ _ => .ok "HDR@@\n\nBODY",
    retrieveContext := fun _ _ => .ok [],
    chainInvoke := fun _ => .ok "out" }

/-- Like `envW` but the chain always returns the failure sentinel `""`. -/
def envSent : Env := { envW with chainInvoke := fun _ => .ok "" }

/-- Like `envW` but the chain always raises. -/
def envFail : Env := { envW with chainInvoke := fun _ => .error (.collab "boom") }

/-- A concrete oracle assignment on which formatting always returns the falsy
value `""` (formatting failure) while everything else returns normally. -/
def envC5 : Env :=
  { getCodeWithoutComments := fun s => .ok s,
    formattedJavaCode := fun _ => .ok "",
    getDiff := fun _ _ => .ok "D",
    retrieveContext := fun _ _ => .ok [],
    chainInvoke := fun _ => .ok "P" }

/-- A concrete example whose target test source is the nonempty text `"TGT"`. -/
def exC5 : Example := ⟨"a", "b", "t", "TGT"⟩

/-- The query produced by `construct_update_query envW exW _`. -/
def qW : Query := ⟨"BODY", "T", ""⟩

/-- A concrete pre-existing ledger record with id `0`. -/
def recW0 : ResultRecord := ⟨0, "", "", ""⟩

theorem itemRecord_ok_iff (env : Env) (ct : Bool) (i : Nat) (exp : Example)
    (r : ResultRecord) :
    itemRecord env ct i exp = .ok r ↔
    ∃ q res c f, construct_update_query env exp ct = .ok q ∧
      env.chainInvoke q = .ok res ∧
      env.getCodeWithoutComments exp.test_tgt = .ok c ∧
      env.formattedJavaCode c = .ok f ∧
      r = { id := i, original := q.test_src, prediction := res, reference := f } := by
  unfold itemRecord
  cases h1 : construct_update_query env exp ct with
  | error e => simp
  | ok q =>
    cases h2 : env.chainInvoke q with
    | error e => simp [h2]
    | ok res =>
      cases h3 : env.getCodeWithoutComments exp.test_tgt with
      | error e => simp [h2, h3]
      | ok c =>
        cases h4 : env.formattedJavaCode c with
        | error e => simp [h2, h3, h4]
        | ok f => simp [h2, h3, h4, eq_comm]

theorem construct_update_query_ok_iff (env : Env) (u : Example) (ct : Bool)
    (q : Query) :
    construct_update_query env u ct = .ok q ↔
    ∃ d tsc tsf rl, diffStrOf env u = .ok d ∧
      env.getCodeWithoutComments u.test_src = .ok tsc ∧
      env.formattedJavaCode tsc = .ok tsf ∧
      env.retrieveContext u ct = .ok rl ∧
      q = { focal_diff := focalDiffOf d,
            test_src := if tsf ≠ "" then tsf else u.test_src,
            global_context := pyStrip (buildContexts rl "") } := by
  unfold construct_update_query
  cases h1 : diffStrOf env u with
  | error e => simp
  | ok d =>
    cases h2 : env.getCodeWithoutComments u.test_src with
    | error e => simp [h2]
    | ok tsc =>
      cases h3 : env.formattedJavaCode tsc with
      | error e => simp [h2, h3]
      | ok tsf =>
        cases h4 : env.retrieveContext u ct with
        | error e => simp [h2, h3, h4]
        | ok rl => simp [h2, h3, h4, eq_comm]

theorem itemRecord_id (env : Env) (ct : Bool) (i : Nat) (exp : Example)
    (r : ResultRecord) (h : itemRecord env ct i exp = .ok r) : r.id = i := by
  obtain ⟨q, res, c, f, -, -, -, -, hr⟩ := (itemRecord_ok_iff env ct i exp r).mp h
  rw [hr]

theorem stepItem_eq (env : Env) (ct wtf : Bool) (i : Nat) (exp : Example)
    (st : LoopState) :
    stepItem env ct wtf i exp st =
      match itemRecord env ct i exp with
      | .error e => .error (e, { st with trace := st.trace ++ [i] })
      | .ok r =>
        .ok { outputs := st.outputs ++ [r],
              error_list := if r.prediction ≠ "" then st.error_list
                            else st.error_list ++ [i],
              file := if wtf then FileContent.jsonList (st.outputs ++ [r])
                      else st.file,
              trace := st.trace ++ [i] } := by
  cases h1 : construct_update_query env exp ct with
  | error e => simp [stepItem, itemRecord, h1]
  | ok q =>
    cases h2 : env.chainInvoke q with
    | error e => simp [stepItem, itemRecord, h1, h2]
    | ok res =>
      cases h3 : env.getCodeWithoutComments exp.test_tgt with
      | error e => simp [stepItem, itemRecord, h1, h2, h3]
      | ok c =>
        cases h4 : env.formattedJavaCode c with
        | error e => simp [stepItem, itemRecord, h1, h2, h3, h4]
        | ok f => simp [stepItem, itemRecord, h1, h2, h3, h4]

theorem recordsFor_cons_ok (env : Env) (ct : Bool) (exp : Example)
    (rest : List Example) (i : Nat) (rs : List ResultRecord)
    (h : recordsFor env ct (exp :: rest) i = .ok rs) :
    ∃ r rs', itemRecord env ct i exp = .ok r ∧
      recordsFor env ct rest (i + 1) = .ok rs' ∧ rs = r :: rs' := by
  unfold recordsFor at h
  cases h1 : itemRecord env ct i exp with
  | error e => rw [h1] at h; cases h
  | ok r =>
    rw [h1] at h
    cases h2 : recordsFor env ct rest (i + 1) with
    | error e => rw [h2] at h; cases h
    | ok rs' =>
      rw [h2] at h
      injection h with h
      exact ⟨r, rs', rfl, rfl, h.symm⟩

theorem recordsFor_ids (env : Env) (ct : Bool) :
    ∀ (exps : List Example) (i : Nat) (rs : List ResultRecord),
      recordsFor env ct exps i = .ok rs →
      rs.map (fun r => r.id) = List.range' i exps.length := by
  intro exps
  induction exps with
  | nil => intro i rs h; injection h with h; rw [← h]; rfl
  | cons e t ih =>
    intro i rs h
    obtain ⟨r, rs', hr, hrest, hcons⟩ := recordsFor_cons_ok env ct e t i rs h
    subst hcons
    have hid := itemRecord_id env ct i e r hr
    simp only [List.map_cons, List.length_cons, hid, ih (i + 1) rs' hrest]
    rfl

theorem recordsFor_get (env : Env) (ct : Bool) :
    ∀ (exps : List Example) (i : Nat) (rs : List ResultRecord) (j : Nat)
      (e : Example), recordsFor env ct exps i = .ok rs → exps[j]? = some e →
      ∃ r, rs[j]? = some r ∧ itemRecord env ct (i + j) e = .ok r := by
  intro exps
  induction exps with
  | nil => intro i rs j e _ he; cases he
  | cons e0 t ih =>
    intro i rs j e h he
    obtain ⟨r, rs', hr, hrest, hcons⟩ := recordsFor_cons_ok env ct e0 t i rs h
    subst hcons
    cases j with
    | zero =>
      simp only [List.getElem?_cons_zero, Option.some.injEq] at he
      subst he
      exact ⟨r, by simp, by simpa using hr⟩
    | succ j' =>
      rw [List.getElem?_cons_succ] at he
      obtain ⟨r', hr', hitem⟩ := ih (i + 1) rs' j' e hrest he
      exact ⟨r', by simpa using hr', by rw [show i + (j' + 1) = i + 1 + j' by omega]; exact hitem⟩

theorem runLoop_ok_spec (env : Env) (ct wtf : Bool) :
    ∀ (exps : List Example) (i : Nat) (st st' : LoopState),
      runLoop env ct wtf exps i st = .ok st' →
      ∃ rs, recordsFor env ct exps i = .ok rs ∧
        st'.outputs = st.outputs ++ rs ∧
        st'.error_list = st.error_list ++ errIds rs ∧
        st'.trace = st.trace ++ List.range' i exps.length := by
  intro exps
  induction exps with
  | nil =>
    intro i st st' h
    injection h with h
    subst h
    exact ⟨[], rfl, by simp, by simp [errIds], by simp⟩
  | cons e t ih =>
    intro i st st' h
    rw [runLoop, stepItem_eq] at h
    cases hr : itemRecord env ct i e with
    | error er => simp [hr] at h
    | ok r =>
      simp only [hr] at h
      obtain ⟨rs', hrec, ho, he, ht⟩ := ih (i + 1) _ st' h
      have hid := itemRecord_id env ct i e r hr
      refine ⟨r :: rs', by simp [recordsFor, hr, hrec], ?_, ?_, ?_⟩
      · rw [ho]; simp
      · rw [he]
        by_cases hp : r.prediction = ""
        · simp [errIds, List.filterMap_cons, hp, hid]
        · simp [errIds, List.filterMap_cons, hp]
      · rw [ht]
        simp only [List.length_cons]
        rw [show List.range' i (t.length + 1) = i :: List.range' (i + 1) t.length from rfl]
        simp

theorem runLoop_error_at (env : Env) (ct wtf : Bool) :
    ∀ (exps : List Example) (j i : Nat) (st : LoopState) (rs : List ResultRecord)
      (ex : Example) (e : Err),
      recordsFor env ct (exps.take j) i = .ok rs →
      exps[j]? = some ex →
      itemRecord env ct (i + j) ex = .error e →
      ∃ stE, runLoop env ct wtf exps i st = .error (e, stE) ∧
        stE.outputs = st.outputs ++ rs ∧
        stE.error_list = st.error_list ++ errIds rs ∧
        stE.trace = st.trace ++ List.range' i (j + 1) := by
  intro exps
  induction exps with
  | nil => intro j i st rs ex e _ hex _; simp at hex
  | cons e0 t ih =>
    intro j i st rs ex e hpre hex hfail
    cases j with
    | zero =>
      injection hpre with hpre
      subst hpre
      simp only [List.getElem?_cons_zero, Option.some.injEq] at hex
      subst hex
      simp only [Nat.add_zero] at hfail
      refine ⟨{ st with trace := st.trace ++ [i] }, ?_, by simp, by simp [errIds], by simp⟩
      rw [runLoop, stepItem_eq]
      simp [hfail]
    | succ j' =>
      obtain ⟨r0, rs', hr0, hrest, hcons⟩ :=
        recordsFor_cons_ok env ct e0 (t.take j') i rs (by simpa using hpre)
      subst hcons
      have hid0 := itemRecord_id env ct i e0 r0 hr0
      have hex' : t[j']? = some ex := by simpa using hex
      have hfail' : itemRecord env ct (i + 1 + j') ex = .error e := by
        rw [show i + 1 + j' = i + (j' + 1) by omega]
        exact hfail
      obtain ⟨stE, hrun, ho, he, ht⟩ := ih j' (i + 1)
        { outputs := st.outputs ++ [r0],
          error_list := if r0.prediction ≠ "" then st.error_list
                        else st.error_list ++ [i],
          file := if wtf then FileContent.jsonList (st.outputs ++ [r0]) else st.file,
          trace := st.trace ++ [i] } rs' ex e hrest hex' hfail'
      refine ⟨stE, ?_, ?_, ?_, ?_⟩
      · rw [runLoop, stepItem_eq]
        simp only [hr0]
        exact hrun
      · rw [ho]; simp
      · rw [he]
        by_cases hp : r0.prediction = ""
        · simp [errIds, List.filterMap_cons, hp, hid0]
        · simp [errIds, List.filterMap_cons, hp]
      · rw [ht]
        simp only []
        rw [show List.range' i (j' + 1 + 1) = i :: List.range' (i + 1) (j' + 1) from rfl]
        simp

theorem diffStrOf_total (env : Env) (henv : EnvTotal env) (u : Example) :
    ∃ d, diffStrOf env u = .ok d := by
  obtain ⟨h1, h2, h3, -, -⟩ := henv
  obtain ⟨a, ha⟩ := h1 u.focal_src
  obtain ⟨b, hb⟩ := h2 a
  obtain ⟨c, hc⟩ := h1 u.focal_tgt
  obtain ⟨d0, hd0⟩ := h2 c
  simp only [diffStrOf, ha, hb, hc, hd0]
  by_cases hbd : b ≠ "" ∧ d0 ≠ ""
  · rw [if_pos hbd]; exact h3 b d0
  · rw [if_neg hbd]; exact h3 u.focal_src u.focal_tgt

theorem construct_total (env : Env) (henv : EnvTotal env) (u : Example) (ct : Bool) :
    ∃ q, construct_update_query env u ct = .ok q := by
  obtain ⟨d, hd⟩ := diffStrOf_total env henv u
  obtain ⟨h1, h2, -, h4, -⟩ := henv
  obtain ⟨tsc, htsc⟩ := h1 u.test_src
  obtain ⟨tsf, htsf⟩ := h2 tsc
  obtain ⟨rl, hrl⟩ := h4 u ct
  exact ⟨_, (construct_update_query_ok_iff env u ct _).mpr
    ⟨d, tsc, tsf, rl, hd, htsc, htsf, hrl, rfl⟩⟩

theorem itemRecord_total (env : Env) (henv : EnvTotal env) (ct : Bool) (i : Nat)
    (exp : Example) : ∃ r, itemRecord env ct i exp = .ok r := by
  obtain ⟨q, hq⟩ := construct_total env henv exp ct
  obtain ⟨h1, h2, -, -, h5⟩ := henv
  obtain ⟨res, hres⟩ := h5 q
  obtain ⟨c, hc⟩ := h1 exp.test_tgt
  obtain ⟨f, hf⟩ := h2 c
  exact ⟨_, (itemRecord_ok_iff env ct i exp _).mpr ⟨q, res, c, f, hq, hres, hc, hf, rfl⟩⟩

theorem runLoop_total (env : Env) (henv : EnvTotal env) (ct wtf : Bool) :
    ∀ (exps : List Example) (i : Nat) (st : LoopState),
      ∃ st', runLoop env ct wtf exps i st = .ok st' := by
  intro exps
  induction exps with
  | nil => intro i st; exact ⟨st, rfl⟩
  | cons e t ih =>
    intro i st
    obtain ⟨r, hr⟩ := itemRecord_total env henv ct i e
    obtain ⟨st', hst'⟩ := ih (i + 1)
      { outputs := st.outputs ++ [r],
        error_list := if r.prediction ≠ "" then st.error_list
                      else st.error_list ++ [i],
        file := if wtf then FileContent.jsonList (st.outputs ++ [r]) else st.file,
        trace := st.trace ++ [i] }
    refine ⟨st', ?_⟩
    rw [runLoop, stepItem_eq]
    simp only [hr]
    exact hst'

theorem loadResume_absent (w : Bool) : loadResume w .absent = .ok ([], 0) := by
  cases w <;> rfl

theorem loadResume_jsonList (l : List ResultRecord) :
    loadResume true (.jsonList l) = .ok (l, l.length) := by
  cases l with
  | nil => rfl
  | cons r t => simp [loadResume]

theorem errIds_sublist_ids (rs : List ResultRecord) :
    List.Sublist (errIds rs) (rs.map fun r => r.id) := by
  induction rs with
  | nil => simp [errIds]
  | cons r t ih =>
    by_cases hp : r.prediction = ""
    · simp only [errIds, List.filterMap_cons, hp, if_pos, List.map_cons]
      exact List.Sublist.cons₂ r.id ih
    · simp only [errIds, List.filterMap_cons, hp, if_neg, List.map_cons]
      exact List.Sublist.cons r.id ih

theorem mem_errIds (rs : List ResultRecord) (r : ResultRecord)
    (hr : r ∈ rs) (hp : r.prediction = "") : r.id ∈ errIds rs :=
  List.mem_filterMap.mpr ⟨r, hr, by simp [hp]⟩

theorem errIds_length_le (rs : List ResultRecord) :
    (errIds rs).length ≤ rs.length := by
  have h := (errIds_sublist_ids rs).length_le
  simpa using h

theorem map_id_eq_range' :
    ∀ (l : List ResultRecord) (s : Nat),
      (∀ j (hj : j < l.length), (l.get ⟨j, hj⟩).id = s + j) →
      l.map (fun r => r.id) = List.range' s l.length := by
  intro l
  induction l with
  | nil => intro s _; rfl
  | cons r t ih =>
    intro s h
    have h0 := h 0 (by simp)
    have ht : t.map (fun r => r.id) = List.range' (s + 1) t.length := by
      apply ih
      intro j hj
      have hjh : j + 1 < (r :: t).length := by simp; omega
      have := h (j + 1) hjh
      rw [show s + 1 + j = s + (j + 1) by omega]
      exact this
    simp only [List.map_cons, List.length_cons, ht]
    rw [show (r.id : Nat) = s from by simpa using h0]
    rfl

theorem get_id_of_map_range' :
    ∀ (l : List ResultRecord) (s : Nat),
      l.map (fun r => r.id) = List.range' s l.length →
      ∀ j (hj : j < l.length), (l.get ⟨j, hj⟩).id = s + j := by
  intro l
  induction l with
  | nil => intro s _ j hj; simp at hj
  | cons r t ih =>
    intro s h j hj
    simp only [List.map_cons, List.length_cons] at h
    rw [show List.range' s (t.length + 1) = s :: List.range' (s + 1) t.length from rfl] at h
    injection h with h1 h2
    cases j with
    | zero => simpa using h1
    | succ j' =>
      have hj' : j' < t.length := by simpa using hj
      have := ih (s + 1) h2 j' hj'
      rw [show s + (j' + 1) = s + 1 + j' by omega]
      exact this

theorem runLoop_false_file (env : Env) (ct : Bool) :
    ∀ (exps : List Example) (i : Nat) (st : LoopState),
      (∀ st', runLoop env ct false exps i st = .ok st' → st'.file = st.file) ∧
      (∀ e stE, runLoop env ct false exps i st = .error (e, stE) →
        stE.file = st.file) := by
  intro exps
  induction exps with
  | nil =>
    intro i st
    refine ⟨fun st' h => ?_, fun e stE h => ?_⟩
    · injection h with h; rw [← h]
    · simp [runLoop] at h
  | cons e0 t ih =>
    intro i st
    refine ⟨fun st' h => ?_, fun e stE h => ?_⟩
    · rw [runLoop, stepItem_eq] at h
      cases hr : itemRecord env ct i e0 with
      | error er => simp [hr] at h
      | ok r =>
        simp only [hr] at h
        have := (ih (i + 1) _).1 st' h
        simpa using this
    · rw [runLoop, stepItem_eq] at h
      cases hr : itemRecord env ct i e0 with
      | error er =>
        simp only [hr] at h
        injection h with h
        rw [show stE = ({ st with trace := st.trace ++ [i] } : LoopState) from
          congrArg Prod.snd h.symm]
      | ok r =>
        simp only [hr] at h
        have := (ih (i + 1) _).2 e stE h
        simpa using this

theorem runMain_build_ok (env : Env) (ct wtf : Bool) (examples : List Example)
    (file0 : FileContent) (out0 : List ResultRecord) (k : Nat) (st : LoopState)
    (hl : loadResume wtf file0 = .ok (out0, k))
    (hrl : runLoop env ct wtf (examples.drop k) k ⟨out0, [], file0, []⟩ = .ok st) :
    runMain env ct wtf examples file0 =
      .ok (st, examples.length - st.error_list.length) := by
  simp only [runMain, hl, hrl]

theorem runMain_build_error (env : Env) (ct wtf : Bool) (examples : List Example)
    (file0 : FileContent) (out0 : List ResultRecord) (k : Nat) (e : Err)
    (stE : LoopState)
    (hl : loadResume wtf file0 = .ok (out0, k))
    (hrl : runLoop env ct wtf (examples.drop k) k ⟨out0, [], file0, []⟩ =
      .error (e, stE)) :
    runMain env ct wtf examples file0 = .error (e, stE) := by
  simp only [runMain, hl, hrl]

theorem runMain_ok_inv (env : Env) (ct wtf : Bool) (examples : List Example)
    (file0 : FileContent) (st : LoopState) (p : Nat)
    (h : runMain env ct wtf examples file0 = .ok (st, p)) :
    ∃ out0 k, loadResume wtf file0 = .ok (out0, k) ∧
      runLoop env ct wtf (examples.drop k) k ⟨out0, [], file0, []⟩ = .ok st ∧
      p = examples.length - st.error_list.length := by
  unfold runMain at h
  cases hl : loadResume wtf file0 with
  | error e => rw [hl] at h; simp at h
  | ok pair =>
    obtain ⟨out0, k⟩ := pair
    rw [hl] at h
    cases hrl : runLoop env ct wtf (examples.drop k) k ⟨out0, [], file0, []⟩ with
    | error es => simp [hrl] at h
    | ok st1 =>
      simp only [hrl, Except.ok.injEq, Prod.mk.injEq] at h
      obtain ⟨hst, hp⟩ := h
      subst hst
      exact ⟨out0, k, rfl, hrl, hp.symm⟩

theorem runMain_error_inv (env : Env) (ct wtf : Bool) (examples : List Example)
    (file0 : FileContent) (e : Err) (stE : LoopState)
    (h : runMain env ct wtf examples file0 = .error (e, stE)) :
    (loadResume wtf file0 = .error e ∧ stE = ⟨[], [], file0, []⟩) ∨
    (∃ out0 k, loadResume wtf file0 = .ok (out0, k) ∧
      runLoop env ct wtf (examples.drop k) k ⟨out0, [], file0, []⟩ =
        .error (e, stE)) := by
  unfold runMain at h
  cases hl : loadResume wtf file0 with
  | error e0 =>
    rw [hl] at h
    simp only [Except.error.injEq, Prod.mk.injEq] at h
    obtain ⟨he0, hst⟩ := h
    subst he0
    exact Or.inl ⟨rfl, hst.symm⟩
  | ok pair =>
    obtain ⟨out0, k⟩ := pair
    rw [hl] at h
    cases hrl : runLoop env ct wtf (examples.drop k) k ⟨out0, [], file0, []⟩ with
    | error es =>
      simp only [hrl, Except.error.injEq] at h
      exact Or.inr ⟨out0, k, rfl, by rw [hrl, h]⟩
    | ok st1 => simp [hrl] at h

theorem envW_total : EnvTotal envW :=
  ⟨fun s => ⟨s, rfl⟩, fun s => ⟨s, rfl⟩, fun _ _ => ⟨"HDR@@\n\nBODY", rfl⟩,
   fun _ _ => ⟨[], rfl⟩, fun _ => ⟨"out", rfl⟩⟩

theorem envSent_total : EnvTotal envSent :=
  ⟨fun s => ⟨s, rfl⟩, fun s => ⟨s, rfl⟩, fun _ _ => ⟨"HDR@@\n\nBODY", rfl⟩,
   fun _ _ => ⟨[], rfl⟩, fun _ => ⟨"", rfl⟩⟩

/-- C9: for every update record whose query construction succeeds, the
bundle's `focal_diff` is the suffix of the computed diff text starting right
after the first occurrence of the four-character marker `"@@\n\n"`; when the
marker does not occur, `focal_diff` is the diff text with its first three
characters removed (`find` returns `-1` and `-1 + 4 = 3`). -/
theorem c9_focal_diff (env : Env) (u : Example) (ct : Bool) (q : Query)
    (d : String) (hq : construct_update_query env u ct = .ok q)
    (hd : diffStrOf env u = .ok d) :
    (∀ n, strFind formatMarker.data d.data = some n →
      q.focal_diff.data = d.data.drop (n + 4)) ∧
    (strFind formatMarker.data d.data = none →
      q.focal_diff.data = d.data.drop 3) := by
  obtain ⟨d', tsc, tsf, rl, hd', htsc, htsf, hrl, hq'⟩ :=
    (construct_update_query_ok_iff env u ct q).mp hq
  rw [hd] at hd'
  injection hd' with hd'
  subst hd'
  subst hq'
  constructor
  · intro n hn
    have ht : (((n : Nat) : Int) + 4).toNat = n + 4 := by omega
    show (focalDiffOf d).data = _
    simp only [focalDiffOf, pyFind, hn, ht]
  · intro hn
    show (focalDiffOf d).data = _
    simp only [focalDiffOf, pyFind, hn]
    rfl

theorem c9_witness :
    construct_update_query envW exW true = .ok qW ∧
    diffStrOf envW exW = .ok "HDR@@\n\nBODY" ∧
    ((∀ n, strFind formatMarker.data ("HDR@@\n\nBODY" : String).data = some n →
        qW.focal_diff.data = ("HDR@@\n\nBODY" : String).data.drop (n + 4)) ∧
     (strFind formatMarker.data ("HDR@@\n\nBODY" : String).data = none →
        qW.focal_diff.data = ("HDR@@\n\nBODY" : String).data.drop 3)) :=
  ⟨rfl, rfl, c9_focal_diff envW exW true qW "HDR@@\n\nBODY" rfl rfl⟩

/-- C6 counterexample: an existing zero-byte output file is not valid JSON,
so the resume read raises `JSONDecodeError` rather than returning the empty
ledger. -/
theorem c6_counterexample :
    loadResume true FileContent.emptyFile = .error Err.jsonDecode ∧
    loadResume true FileContent.emptyFile ≠ .ok ([], 0) :=
  ⟨rfl, fun h => by simp [loadResume] at h⟩

/-- C6 (amended): the resume read yields the empty ledger and start index 0
when the output file does not exist, and also when it exists holding the
empty JSON array `[]`; but an existing zero-byte file is invalid JSON and
`json.load` raises `JSONDecodeError`. -/
theorem c6_load_existing :
    loadResume true FileContent.absent = .ok ([], 0) ∧
    loadResume true (FileContent.jsonList []) = .ok ([], 0) ∧
    loadResume true FileContent.emptyFile = .error Err.jsonDecode :=
  ⟨rfl, rfl, rfl⟩

/-- C5 counterexample: with a formatter that fails (returns the falsy `""`)
on the target test source `"TGT"`, the appended record's `reference` field is
`""`, not the raw original target text — the code has no fallback for the
`reference` field. -/
theorem c5_counterexample :
    stepItem envC5 true true 0 exC5 ⟨[], [], FileContent.absent, []⟩ =
      .ok ⟨[⟨0, "t", "P", ""⟩], [],
           FileContent.jsonList [⟨0, "t", "P", ""⟩], [0]⟩ ∧
    envC5.getCodeWithoutComments exC5.test_tgt = .ok "TGT" ∧
    envC5.formattedJavaCode "TGT" = .ok "" ∧
    (⟨0, "t", "P", ""⟩ : ResultRecord).reference ≠ exC5.test_tgt :=
  ⟨rfl, rfl, rfl, by simp [exC5]⟩

/-- C5 (amended): for every processed item the record's `reference` field
equals exactly `formatted_java_code(get_code_without_comments(target))` —
including when formatting fails and that value is the falsy `""`; there is no
fallback to the raw target test source. -/
theorem c5_reference_no_fallback (env : Env) (ct wtf : Bool) (i : Nat)
    (exp : Example) (st st' : LoopState) (c f : String)
    (hc : env.getCodeWithoutComments exp.test_tgt = .ok c)
    (hf : env.formattedJavaCode c = .ok f)
    (h : stepItem env ct wtf i exp st = .ok st') :
    ∃ r, st'.outputs = st.outputs ++ [r] ∧ r.reference = f := by
  rw [stepItem_eq] at h
  cases hr : itemRecord env ct i exp with
  | error er => simp [hr] at h
  | ok r =>
    simp only [hr] at h
    injection h with h
    subst h
    obtain ⟨q, res, c', f', hq, hres, hc', hf', hrdef⟩ :=
      (itemRecord_ok_iff env ct i exp r).mp hr
    rw [hc] at hc'
    injection hc' with hc'
    subst hc'
    rw [hf] at hf'
    injection hf' with hf'
    subst hf'
    exact ⟨r, by simp, by rw [hrdef]⟩

theorem c5_witness :
    envW.getCodeWithoutComments exW.test_tgt = .ok "G" ∧
    envW.formattedJavaCode "G" = .ok "G" ∧
    stepItem envW true true 0 exW ⟨[], [], FileContent.absent, []⟩ =
      .ok ⟨[⟨0, "T", "out", "G"⟩], [],
           FileContent.jsonList [⟨0, "T", "out", "G"⟩], [0]⟩ ∧
    ∃ r, (⟨[⟨0, "T", "out", "G"⟩], [],
           FileContent.jsonList [⟨0, "T", "out", "G"⟩], [0]⟩ : LoopState).outputs =
        (⟨[], [], FileContent.absent, []⟩ : LoopState).outputs ++ [r] ∧
      r.reference = "G" :=
  ⟨rfl, rfl, rfl,
   c5_reference_no_fallback envW true true 0 exW _ _ "G" "G" rfl rfl rfl⟩

/-- C3: for every processed item (with persistence on), after the per-item
append the output file holds exactly the serialization of the full in-memory
ledger accumulated so far — the whole file content is replaced, not appended
to — and the record appended for item `i` is
`{id := i, original := bundle.test_src, prediction := res, reference := f}`. -/
theorem c3_persist_every_item (env : Env) (ct : Bool) (i : Nat) (exp : Example)
    (st : LoopState) (q : Query) (res c f : String)
    (hq : construct_update_query env exp ct = .ok q)
    (hres : env.chainInvoke q = .ok res)
    (hc : env.getCodeWithoutComments exp.test_tgt = .ok c)
    (hf : env.formattedJavaCode c = .ok f) :
    stepItem env ct true i exp st =
      .ok { outputs := st.outputs ++ [⟨i, q.test_src, res, f⟩],
            error_list := if res ≠ "" then st.error_list
                          else st.error_list ++ [i],
            file := FileContent.jsonList (st.outputs ++ [⟨i, q.test_src, res, f⟩]),
            trace := st.trace ++ [i] } := by
  have hr : itemRecord env ct i exp = .ok ⟨i, q.test_src, res, f⟩ :=
    (itemRecord_ok_iff env ct i exp _).mpr ⟨q, res, c, f, hq, hres, hc, hf, rfl⟩
  rw [stepItem_eq]
  simp [hr]

theorem c3_witness :
    construct_update_query envW exW true = .ok qW ∧
    envW.chainInvoke qW = .ok "out" ∧
    envW.getCodeWithoutComments exW.test_tgt = .ok "G" ∧
    envW.formattedJavaCode "G" = .ok "G" ∧
    stepItem envW true true 0 exW ⟨[], [], FileContent.absent, []⟩ =
      .ok { outputs := ([] : List ResultRecord) ++ [⟨0, qW.test_src, "out", "G"⟩],
            error_list := if ("out" : String) ≠ "" then ([] : List Nat)
                          else [] ++ [0],
            file := FileContent.jsonList
              (([] : List ResultRecord) ++ [⟨0, qW.test_src, "out", "G"⟩]),
            trace := ([] : List Nat) ++ [0] } :=
  ⟨rfl, rfl, rfl, rfl,
   c3_persist_every_item envW true 0 exW _ qW "out" "G" "G" rfl rfl rfl rfl⟩

/-- C4: every successful iteration grows the ledger by exactly one appended
record (the previous records are left in place, unmodified), and whenever the
starting ledger is dense (`ledger[j].id = j`) and the processed id `i` equals
its length, the resulting ledger is dense as well. -/
theorem c4_append_growth (env : Env) (ct wtf : Bool) (i : Nat) (exp : Example)
    (st st' : LoopState) (h : stepItem env ct wtf i exp st = .ok st') :
    (∃ r, st'.outputs = st.outputs ++ [r]) ∧
    st'.outputs.length = st.outputs.length + 1 ∧
    (i = st.outputs.length →
      (∀ j (hj : j < st.outputs.length), (st.outputs.get ⟨j, hj⟩).id = j) →
      ∀ j (hj : j < st'.outputs.length), (st'.outputs.get ⟨j, hj⟩).id = j) := by
  rw [stepItem_eq] at h
  cases hr : itemRecord env ct i exp with
  | error er => simp [hr] at h
  | ok r =>
    simp only [hr] at h
    injection h with h
    subst h
    have hid := itemRecord_id env ct i exp r hr
    refine ⟨⟨r, by simp⟩, by simp, ?_⟩
    intro hi hinv j hj
    have h1 : st.outputs.map (fun x => x.id) = List.range' 0 st.outputs.length :=
      map_id_eq_range' st.outputs 0 (by
        intro j' hj'
        have := hinv j' hj'
        omega)
    have h2 : ([r] : List ResultRecord).map (fun x => x.id) =
        List.range' st.outputs.length 1 := by
      simp [hid, hi]
    have hmap : (st.outputs ++ [r]).map (fun x => x.id) =
        List.range' 0 (st.outputs ++ [r]).length := by
      rw [List.map_append, h1, h2]
      have h3 := List.range'_append_1 0 st.outputs.length 1
      simp only [Nat.zero_add] at h3
      rw [h3]
      simp [Nat.add_comm]
    show ((st.outputs ++ [r]).get ⟨j, hj⟩).id = j
    have := get_id_of_map_range' (st.outputs ++ [r]) 0 hmap j hj
    omega

theorem c4_witness :
    stepItem envW true true 0 exW ⟨[], [], FileContent.absent, []⟩ =
      .ok ⟨[⟨0, "T", "out", "G"⟩], [],
           FileContent.jsonList [⟨0, "T", "out", "G"⟩], [0]⟩ ∧
    ∃ r, (⟨[⟨0, "T", "out", "G"⟩], [],
          FileContent.jsonList [⟨0, "T", "out", "G"⟩], [0]⟩ : LoopState).outputs =
        (⟨[], [], FileContent.absent, []⟩ : LoopState).outputs ++ [r] :=
  ⟨rfl, (c4_append_growth envW true true 0 exW ⟨[], [], FileContent.absent, []⟩
    ⟨[⟨0, "T", "out", "G"⟩], [], FileContent.jsonList [⟨0, "T", "out", "G"⟩], [0]⟩
    rfl).1⟩

/-- C1 (amended: additionally requires `k ≤ N`): for every dataset of `N`
records and pre-existing ledger of `k ≤ N` records with `ledger[j].id = j`,
a run with resume enabled (write flag on, file present) that completes
processes exactly the items `k..N-1` in strictly increasing order, and the
final ledger has `N` records with ids `0..N-1`. -/
theorem c1_resume_correct (env : Env) (ct : Bool) (examples : List Example)
    (ledger : List ResultRecord) (henv : EnvTotal env)
    (hids : ∀ j (hj : j < ledger.length), (ledger.get ⟨j, hj⟩).id = j)
    (hk : ledger.length ≤ examples.length) :
    ∃ st p, runMain env ct true examples (FileContent.jsonList ledger) =
        .ok (st, p) ∧
      st.trace = List.range' ledger.length (examples.length - ledger.length) ∧
      st.outputs.length = examples.length ∧
      ∀ j (hj : j < st.outputs.length), (st.outputs.get ⟨j, hj⟩).id = j := by
  obtain ⟨st, hrl⟩ := runLoop_total env henv ct true (examples.drop ledger.length)
    ledger.length ⟨ledger, [], FileContent.jsonList ledger, []⟩
  obtain ⟨rs, hrec, ho, he, ht⟩ := runLoop_ok_spec env ct true _ _ _ _ hrl
  have hmap := recordsFor_ids env ct _ ledger.length rs hrec
  rw [List.length_drop] at hmap
  have houtmap : st.outputs.map (fun x => x.id) =
      List.range' 0 examples.length := by
    rw [ho, List.map_append]
    rw [map_id_eq_range' ledger 0 (by intro j hj; have := hids j hj; omega)]
    rw [hmap]
    have h3 := List.range'_append_1 0 ledger.length
      (examples.length - ledger.length)
    simp only [Nat.zero_add] at h3
    rw [h3]
    congr 1
    omega
  refine ⟨st, examples.length - st.error_list.length,
    runMain_build_ok env ct true examples (FileContent.jsonList ledger) ledger
      ledger.length st (loadResume_jsonList ledger) hrl, ?_, ?_, ?_⟩
  · rw [ht, List.length_drop]
    simp
  · have := congrArg List.length houtmap
    simpa using this
  · have hlen : st.outputs.length = examples.length := by
      have := congrArg List.length houtmap
      simpa using this
    have houtmap2 : st.outputs.map (fun x => x.id) =
        List.range' 0 st.outputs.length := by
      rw [houtmap, hlen]
    intro j hj
    have := get_id_of_map_range' st.outputs 0 houtmap2 j hj
    omega

theorem c1_witness :
    EnvTotal envW ∧
    ([] : List ResultRecord).length ≤ ([exW] : List Example).length ∧
    ∃ st p, runMain envW true true [exW] (FileContent.jsonList []) = .ok (st, p) ∧
      st.trace = List.range' ([] : List ResultRecord).length
        (([exW] : List Example).length - ([] : List ResultRecord).length) ∧
      st.outputs.length = ([exW] : List Example).length ∧
      ∀ j (hj : j < st.outputs.length), (st.outputs.get ⟨j, hj⟩).id = j :=
  ⟨envW_total, by simp,
   c1_resume_correct envW true [exW] [] envW_total
     (by intro j hj; simp at hj) (by simp)⟩

/-- C1 counterexample: with the empty dataset (`N = 0`) and a pre-existing
ledger of one record whose id is `0` (so the density precondition holds),
the run completes with a final ledger of 1 record, not `N = 0` — the claim
as stated fails when the ledger is longer than the dataset. -/
theorem c1_counterexample :
    recW0.id = 0 ∧
    runMain envW true true ([] : List Example) (FileContent.jsonList [recW0]) =
      .ok (⟨[recW0], [], FileContent.jsonList [recW0], []⟩, 0) ∧
    ([recW0] : List ResultRecord).length ≠ ([] : List Example).length :=
  ⟨rfl, rfl, by simp⟩

/-- C2: in every completing run, an item `i` in the processed range whose
Generation Step returns the failure sentinel `""` appears in the final
ErrorList exactly once, still gets a ResultRecord (with the sentinel as its
prediction) appended, and every item of the processed range `k..N-1` is still
processed (trace is the full range — no exception escapes because of the
sentinel, as oracle totality yields a normal completion). -/
theorem c2_error_isolation (env : Env) (ct wtf : Bool) (examples : List Example)
    (file0 : FileContent) (out0 : List ResultRecord) (k i : Nat) (exp : Example)
    (q : Query) (henv : EnvTotal env)
    (hload : loadResume wtf file0 = .ok (out0, k))
    (hk : k ≤ i) (hex : examples[i]? = some exp)
    (hq : construct_update_query env exp ct = .ok q)
    (hsent : env.chainInvoke q = .ok "") :
    ∃ st p, runMain env ct wtf examples file0 = .ok (st, p) ∧
      st.error_list.count i = 1 ∧
      (∃ r, r ∈ st.outputs ∧ r.id = i ∧ r.prediction = "") ∧
      st.trace = List.range' k (examples.length - k) := by
  obtain ⟨st, hrl⟩ := runLoop_total env henv ct wtf (examples.drop k) k
    ⟨out0, [], file0, []⟩
  obtain ⟨rs, hrec, ho, he, ht⟩ := runLoop_ok_spec env ct wtf _ _ _ _ hrl
  have hdropex : (examples.drop k)[i - k]? = some exp := by
    rw [List.getElem?_drop, show k + (i - k) = i by omega]
    exact hex
  obtain ⟨r, hrget, hitem⟩ := recordsFor_get env ct (examples.drop k) k rs
    (i - k) exp hrec hdropex
  rw [show k + (i - k) = i by omega] at hitem
  obtain ⟨q', res', c', f', hq', hres', hc', hf', hrdef⟩ :=
    (itemRecord_ok_iff env ct i exp r).mp hitem
  rw [hq] at hq'
  injection hq' with hq'
  subst hq'
  rw [hsent] at hres'
  injection hres' with hres'
  subst hres'
  have hrpred : r.prediction = "" := by rw [hrdef]
  have hrid : r.id = i := by rw [hrdef]
  have hrmem : r ∈ rs := List.getElem?_mem hrget
  have hmaprs : rs.map (fun x => x.id) =
      List.range' k (examples.drop k).length := recordsFor_ids env ct _ k rs hrec
  refine ⟨st, examples.length - st.error_list.length,
    runMain_build_ok env ct wtf examples file0 out0 k st hload hrl, ?_, ?_, ?_⟩
  · rw [he]
    have hnodup : (errIds rs).Nodup := by
      have hmn : (rs.map fun x => x.id).Nodup := by
        rw [hmaprs]; exact List.nodup_range' _ _
      exact hmn.sublist (errIds_sublist_ids rs)
    have hmemerr : i ∈ errIds rs := by
      have hh := mem_errIds rs r hrmem hrpred
      rwa [hrid] at hh
    show (([] : List Nat) ++ errIds rs).count i = 1
    rw [List.nil_append]
    exact List.count_eq_one_of_mem hnodup hmemerr
  · exact ⟨r, by rw [ho]; exact List.mem_append_right _ hrmem, hrid, hrpred⟩
  · rw [ht, List.length_drop]
    simp

theorem c2_witness :
    EnvTotal envSent ∧
    loadResume true FileContent.absent = .ok ([], 0) ∧
    (0 : Nat) ≤ 0 ∧
    ([exW] : List Example)[0]? = some exW ∧
    construct_update_query envSent exW true = .ok qW ∧
    envSent.chainInvoke qW = .ok "" ∧
    ∃ st p, runMain envSent true true [exW] FileContent.absent = .ok (st, p) ∧
      st.error_list.count 0 = 1 ∧
      (∃ r, r ∈ st.outputs ∧ r.id = 0 ∧ r.prediction = "") ∧
      st.trace = List.range' 0 (([exW] : List Example).length - 0) :=
  ⟨envSent_total, rfl, Nat.le_refl 0, rfl, rfl, rfl,
   c2_error_isolation envSent true true [exW] FileContent.absent [] 0 0 exW qW
     envSent_total rfl (Nat.le_refl 0) rfl rfl rfl⟩

/-- C7: a completing run reports as total processed exactly
`len(examples) - len(error_list)` together with the full ErrorList, and for a
run started from an empty ledger (absent output file) that count plus the
ErrorList length equals `N`. -/
theorem c7_summary_accuracy (env : Env) (ct wtf : Bool)
    (examples : List Example) (henv : EnvTotal env) :
    ∃ st p, runMain env ct wtf examples FileContent.absent = .ok (st, p) ∧
      p = examples.length - st.error_list.length ∧
      p + st.error_list.length = examples.length := by
  obtain ⟨st, hrl⟩ := runLoop_total env henv ct wtf (examples.drop 0) 0
    ⟨[], [], FileContent.absent, []⟩
  obtain ⟨rs, hrec, ho, he, ht⟩ := runLoop_ok_spec env ct wtf _ _ _ _ hrl
  refine ⟨st, examples.length - st.error_list.length,
    runMain_build_ok env ct wtf examples FileContent.absent [] 0 st
      (loadResume_absent wtf) hrl, rfl, ?_⟩
  have h1 : st.error_list.length ≤ rs.length := by
    rw [he]
    show (([] : List Nat) ++ errIds rs).length ≤ rs.length
    rw [List.nil_append]
    exact errIds_length_le rs
  have h2 : rs.length = examples.length := by
    have hh := congrArg List.length (recordsFor_ids env ct _ 0 rs hrec)
    simpa using hh
  omega

theorem c7_witness :
    EnvTotal envW ∧
    ∃ st p, runMain envW true true [exW] FileContent.absent = .ok (st, p) ∧
      p = ([exW] : List Example).length - st.error_list.length ∧
      p + st.error_list.length = ([exW] : List Example).length :=
  ⟨envW_total, c7_summary_accuracy envW true true [exW] envW_total⟩

/-- C8: if for the first unprocessed item `i` either building the
QueryBundle or invoking the Generation Step raises, the exception propagates
out of the run: the run's result is that error, the records appended during
the run have ids `k..i-1` only (none for `i`), `i` is not in the ErrorList at
the moment the exception escapes, and no item beyond `i` is ever entered. -/
theorem c8_per_item_exception_fatal (env : Env) (ct wtf : Bool)
    (examples : List Example) (file0 : FileContent)
    (out0 rs : List ResultRecord) (k i : Nat) (exp : Example) (e : Err)
    (hload : loadResume wtf file0 = .ok (out0, k))
    (hk : k ≤ i) (hex : examples[i]? = some exp)
    (hpre : recordsFor env ct ((examples.drop k).take (i - k)) k = .ok rs)
    (hfail : construct_update_query env exp ct = .error e ∨
      ∃ q, construct_update_query env exp ct = .ok q ∧
        env.chainInvoke q = .error e) :
    ∃ stE, runMain env ct wtf examples file0 = .error (e, stE) ∧
      stE.outputs = out0 ++ rs ∧
      rs.map (fun r => r.id) = List.range' k (i - k) ∧
      (∀ r, r ∈ rs → r.id < i) ∧
      i ∉ stE.error_list ∧
      stE.trace = List.range' k (i - k + 1) ∧
      (∀ j, j ∈ stE.trace → j ≤ i) := by
  have hitem : itemRecord env ct i exp = .error e := by
    rcases hfail with hc | ⟨q, hq, hg⟩
    · simp only [itemRecord, hc]
    · simp only [itemRecord, hq, hg]
  have hN : i < examples.length := (List.getElem?_eq_some.mp hex).1
  have hdropex : (examples.drop k)[i - k]? = some exp := by
    rw [List.getElem?_drop, show k + (i - k) = i by omega]
    exact hex
  have hfail' : itemRecord env ct (k + (i - k)) exp = .error e := by
    rw [show k + (i - k) = i by omega]
    exact hitem
  obtain ⟨stE, hrun, ho, he, ht⟩ := runLoop_error_at env ct wtf
    (examples.drop k) (i - k) k ⟨out0, [], file0, []⟩ rs exp e hpre hdropex hfail'
  have htk : ((examples.drop k).take (i - k)).length = i - k := by
    rw [List.length_take, List.length_drop]
    omega
  have hmaprs : rs.map (fun r => r.id) = List.range' k (i - k) := by
    have := recordsFor_ids env ct _ k rs hpre
    rwa [htk] at this
  refine ⟨stE, runMain_build_error env ct wtf examples file0 out0 k e stE
    hload hrun, by rw [ho], hmaprs, ?_, ?_, ?_, ?_⟩
  · intro r hr
    have hmem : r.id ∈ List.range' k (i - k) := by
      rw [← hmaprs]
      exact List.mem_map_of_mem _ hr
    have := (List.mem_range'_1.mp hmem).2
    omega
  · rw [he]
    show i ∉ ([] : List Nat) ++ errIds rs
    rw [List.nil_append]
    intro hmem
    have h2 : i ∈ rs.map (fun r => r.id) := (errIds_sublist_ids rs).subset hmem
    rw [hmaprs] at h2
    have := (List.mem_range'_1.mp h2).2
    omega
  · rw [ht]
    show ([] : List Nat) ++ List.range' k (i - k + 1) = List.range' k (i - k + 1)
    rw [List.nil_append]
  · intro j hj
    rw [ht] at hj
    rw [show (⟨out0, [], file0, []⟩ : LoopState).trace ++
      List.range' k (i - k + 1) = List.range' k (i - k + 1) from
      List.nil_append _] at hj
    have := (List.mem_range'_1.mp hj).2
    omega

theorem c8_witness :
    loadResume true FileContent.absent = .ok ([], 0) ∧
    (0 : Nat) ≤ 0 ∧
    ([exW] : List Example)[0]? = some exW ∧
    recordsFor envFail true ((([exW] : List Example).drop 0).take (0 - 0)) 0 =
      .ok [] ∧
    (construct_update_query envFail exW true = .ok qW ∧
      envFail.chainInvoke qW = .error (.collab "boom")) ∧
    ∃ stE, runMain envFail true true [exW] FileContent.absent =
        .error (.collab "boom", stE) ∧
      stE.outputs = [] ++ [] ∧
      ([] : List ResultRecord).map (fun r => r.id) = List.range' 0 (0 - 0) ∧
      (∀ r, r ∈ ([] : List ResultRecord) → r.id < 0) ∧
      0 ∉ stE.error_list ∧
      stE.trace = List.range' 0 (0 - 0 + 1) ∧
      (∀ j, j ∈ stE.trace → j ≤ 0) :=
  ⟨rfl, Nat.le_refl 0, rfl, rfl, ⟨rfl, rfl⟩,
   c8_per_item_exception_fatal envFail true true [exW] FileContent.absent
     [] [] 0 0 exW (.collab "boom") rfl (Nat.le_refl 0) rfl rfl
     (Or.inr ⟨qW, rfl, rfl⟩)⟩

/-- C10: the single flag `write_to_file` couples persistence and resume:
with it off, the resume read never touches the file (it yields `([], 0)` for
every file state, so processing starts at index 0 even when a file exists),
no iteration changes the file state, and a whole run — completing or aborted
by an exception — leaves the file exactly as it started. -/
theorem c10_flag_coupling (env : Env) (ct : Bool) (examples : List Example)
    (file0 : FileContent) :
    loadResume false file0 = .ok ([], 0) ∧
    (∀ i exp st st', stepItem env ct false i exp st = .ok st' →
      st'.file = st.file) ∧
    (∀ st p, runMain env ct false examples file0 = .ok (st, p) →
      st.file = file0 ∧ st.trace = List.range' 0 examples.length) ∧
    (∀ e stE, runMain env ct false examples file0 = .error (e, stE) →
      stE.file = file0) := by
  refine ⟨rfl, ?_, ?_, ?_⟩
  · intro i exp st st' h
    rw [stepItem_eq] at h
    cases hr : itemRecord env ct i exp with
    | error er => simp [hr] at h
    | ok r =>
      simp only [hr] at h
      injection h with h
      rw [← h]
      simp
  · intro st p h
    obtain ⟨out0, k, hl, hrl, hp⟩ :=
      runMain_ok_inv env ct false examples file0 st p h
    rw [show loadResume false file0 = .ok ([], 0) from rfl] at hl
    injection hl with hl
    injection hl with h1 h2
    subst h1
    subst h2
    constructor
    · exact (runLoop_false_file env ct (examples.drop 0) 0
        ⟨[], [], file0, []⟩).1 st hrl
    · obtain ⟨rs, hrec, ho, he, ht⟩ := runLoop_ok_spec env ct false _ _ _ _ hrl
      rw [ht]
      show ([] : List Nat) ++ List.range' 0 (examples.drop 0).length =
        List.range' 0 examples.length
      rw [List.nil_append, List.drop_zero]
  · intro e stE h
    rcases runMain_error_inv env ct false examples file0 e stE h with
      ⟨hl, -⟩ | ⟨out0, k, hl, hrl⟩
    · rw [show loadResume false file0 = .ok ([], 0) from rfl] at hl
      simp at hl
    · rw [show loadResume false file0 = .ok ([], 0) from rfl] at hl
      injection hl with hl
      injection hl with h1 h2
      subst h1
      subst h2
      exact (runLoop_false_file env ct (examples.drop 0) 0
        ⟨[], [], file0, []⟩).2 e stE hrl

theorem c10_witness :
    loadResume false (FileContent.jsonList [recW0]) = .ok ([], 0) ∧
    runMain envW true false [exW] (FileContent.jsonList [recW0]) =
      .ok (⟨[⟨0, "T", "out", "G"⟩], [],
           FileContent.jsonList [recW0], [0]⟩, 1) ∧
    (⟨[⟨0, "T", "out", "G"⟩], [],
      FileContent.jsonList [recW0], [0]⟩ : LoopState).file =
      FileContent.jsonList [recW0] ∧
    (⟨[⟨0, "T", "out", "G"⟩], [],
      FileContent.jsonList [recW0], [0]⟩ : LoopState).trace =
      List.range' 0 ([exW] : List Example).length :=
  ⟨(c10_flag_coupling envW true [exW] (FileContent.jsonList [recW0])).1, rfl,
   ((c10_flag_coupling envW true [exW] (FileContent.jsonList [recW0])).2.2.1
     _ 1 rfl).1,
   ((c10_flag_coupling envW true [exW] (FileContent.jsonList [recW0])).2.2.1
     _ 1 rfl).2⟩
